import Mathlib

/-!
# Verification of the kamu bitemporal data writer (`DataWriterDataFusion`)

Shallow embedding of `src/infra/ingest-datafusion/src/writer.rs` and the parts of
`src/domain/core/src/services/ingest/data_writer.rs` it relies on.

Modelling conventions:
* timestamps are millisecond counts (`Int`), matching the writer's normalization of
  every timestamp to `Timestamp(Millisecond, "UTC")`;
* multihashes and source states are opaque values compared for equality (`Nat`);
* a DataFusion `DataFrame` is a schema (list of named Arrow types) together with its
  logical rows; row payloads are opaque (`Nat`), rows additionally carry the value of
  the event-time column when one is present;
* the dynamic objects the writer talks to (`Arc<dyn MergeStrategy>`,
  `Arc<dyn Dataset>`) are records of functions, mirroring trait-object dispatch;
* `async` + `?` becomes explicit `Except`; `&mut self` mutation becomes explicit
  state passing that returns the writer state reached at the point of early return.
-/

namespace KamuWriter

/-- Millisecond-precision UTC instants. -/
abbrev Time := Int

/-- Content-addressed hashes, opaque. -/
abbrev Multihash := Nat

/-- Opaque upstream source cursor (`odf::SourceState`), compared for equality. -/
abbrev SourceState := Nat

/-- Opaque merge-strategy error payload. -/
abbrev MergeError := Nat

instance {ε α : Type} [DecidableEq ε] [DecidableEq α] : DecidableEq (Except ε α) :=
  fun x y =>
    match x, y with
    | .error a, .error b =>
      if h : a = b then .isTrue (by rw [h]) else .isFalse (by intro hh; cases hh; exact h rfl)
    | .ok a, .ok b =>
      if h : a = b then .isTrue (by rw [h]) else .isFalse (by intro hh; cases hh; exact h rfl)
    | .error _, .ok _ => .isFalse (by intro hh; cases hh)
    | .ok _, .error _ => .isFalse (by intro hh; cases hh)

/-! ## Arrow data types (the fragment the writer distinguishes) -/

inductive TimeUnit
  | second
  | millisecond
  | microsecond
  | nanosecond
deriving DecidableEq, Repr

inductive DataType
  | int64
  | utf8
  | date32
  | date64
  | timestamp (unit : TimeUnit) (tz : Option String)
  | other (tag : Nat)
deriving DecidableEq, Repr

structure Field where
  name : String
  dtype : DataType
deriving DecidableEq, Repr

abbrev ArrowSchema := List Field

/-- `df.schema().has_column_with_unqualified_name(name)`. -/
def hasColumnWithUnqualifiedName (schema : ArrowSchema) (name : String) : Bool :=
  schema.any (fun f => f.name = name)

/-! ## Vocabulary -/

/-- `odf::DatasetVocabulary` as carried by a `SetVocab` event: optional column names. -/
structure DatasetVocabularyRaw where
  offset_column : Option String
  system_time_column : Option String
  event_time_column : Option String
deriving DecidableEq, Repr

/-- `odf::DatasetVocabularyResolvedOwned`: all three names resolved. -/
structure DatasetVocabulary where
  offset_column : String
  system_time_column : String
  event_time_column : String
deriving DecidableEq, Repr

/-- `Default::default()` for the raw vocabulary. -/
def defaultVocabRaw : DatasetVocabularyRaw := ⟨none, none, none⟩

/-- `DatasetVocabulary::into::<DatasetVocabularyResolvedOwned>()`: fill ODF defaults. -/
def resolveVocab (v : DatasetVocabularyRaw) : DatasetVocabulary :=
  { offset_column := v.offset_column.getD "offset"
    system_time_column := v.system_time_column.getD "system_time"
    event_time_column := v.event_time_column.getD "event_time" }

/-! ## Frames -/

/-- One logical row of a frame: the value of the event-time column (when the frame has
one) plus an opaque payload standing for all other column values. -/
structure Row where
  event_time : Time
  payload : Nat
deriving DecidableEq, Repr

/-- A row after `with_system_columns`. -/
structure AnnRow where
  offset : Int
  system_time : Time
  event_time : Time
  payload : Nat
deriving DecidableEq, Repr

/-! ## Errors (`data_writer.rs`) -/

structure BadInputSchemaError where
  message : String
  schema : ArrowSchema
deriving DecidableEq, Repr

inductive StageDataError
  | badInputSchema (e : BadInputSchemaError)
  | mergeError (e : MergeError)
  | emptyCommit
  | internalError
deriving DecidableEq, Repr

inductive CommitError
  | commitFailed (code : Nat)
  | internalError
deriving DecidableEq, Repr

inductive WriteDataError
  | badInputSchema (e : BadInputSchemaError)
  | mergeError (e : MergeError)
  | emptyCommit
  | commitError (e : CommitError)
  | internalError
deriving DecidableEq, Repr

/-- `impl From<StageDataError> for WriteDataError` (data_writer.rs lines 105-114). -/
def ofStageDataError : StageDataError → WriteDataError
  | .badInputSchema v => .badInputSchema v
  | .mergeError v => .mergeError v
  | .emptyCommit => .emptyCommit
  | .internalError => .internalError

/-! ## Metadata events -/

structure OffsetInterval where
  start : Int
  end_ : Int
deriving DecidableEq, Repr

structure DataSlice where
  physical_hash : Multihash
  interval : OffsetInterval
deriving DecidableEq, Repr

structure AddDataEvent where
  input_checkpoint : Option Multihash
  output_data : Option DataSlice
  output_checkpoint : Option Multihash
  output_watermark : Option Time
  source_state : Option SourceState
deriving DecidableEq, Repr

inductive DatasetKind
  | root
  | derivative
deriving DecidableEq, Repr

inductive MergeStrategyConf
  | append
  | ledger (primary_key : List String)
  | snapshot (primary_key : List String) (cfg : Nat)
deriving DecidableEq, Repr

inductive MetadataEvent
  | seed (dataset_kind : DatasetKind)
  | setDataSchema (schema : ArrowSchema)
  | addData (e : AddDataEvent)
  | setWatermark (output_watermark : Time)
  | setPollingSource (merge : MergeStrategyConf)
  | disablePollingSource
  | addPushSource (source_name : Option String) (merge : MergeStrategyConf)
  | disablePushSource
  | setVocab (v : DatasetVocabularyRaw)
  | executeQuery
  | setAttachments
  | setInfo
  | setLicense
  | setTransform
deriving DecidableEq, Repr

structure Block where
  prev_block_hash : Option Multihash
  system_time : Time
  event : MetadataEvent
deriving DecidableEq, Repr

/-! ## Writer state -/

/-- `DataWriterMetadataState` (writer.rs lines 39-50). -/
structure DataWriterMetadataState where
  head : Multihash
  schema : Option ArrowSchema
  source_event : Option MetadataEvent
  merge_strategy : MergeStrategyConf
  vocab : DatasetVocabulary
  data_slices : List Multihash
  last_offset : Option Int
  last_checkpoint : Option Multihash
  last_watermark : Option Time
  last_source_state : Option SourceState
deriving DecidableEq, Repr

/-! ## Input validation (writer.rs `validate_input`, lines 92-136) -/

def isValidEventTimeType : DataType → Bool
  | .date32 => true
  | .date64 => true
  | .timestamp _ _ => true
  | _ => false

def validate_input (vocab : DatasetVocabulary) (schema : ArrowSchema) :
    Except BadInputSchemaError Unit :=
  if hasColumnWithUnqualifiedName schema vocab.offset_column then
    .error ⟨"Data contains a column that conflicts with the system column name: " ++
      vocab.offset_column, schema⟩
  else if hasColumnWithUnqualifiedName schema vocab.system_time_column then
    .error ⟨"Data contains a column that conflicts with the system column name: " ++
      vocab.system_time_column, schema⟩
  else
    match schema.find? (fun f => f.name = vocab.event_time_column) with
    | some f =>
      if isValidEventTimeType f.dtype then .ok ()
      else .error ⟨"Event time column should be either Date or Timestamp", schema⟩
    | none => .ok ()

/-! ## Timestamp normalization (writer.rs `normalize_raw_result`, lines 141-173)

Value-level casting is a no-op in the model (all `Time`s are already millisecond UTC),
but the schema-level retyping is kept. -/

def normalizeFieldType : DataType → DataType
  | .timestamp _ _ => .timestamp .millisecond (some "UTC")
  | t => t

def normalize_raw_result (schema : ArrowSchema) : ArrowSchema :=
  schema.map (fun f => { f with dtype := normalizeFieldType f.dtype })

/-! ## Reading previous slices (writer.rs `get_all_previous_data`, lines 176-213) -/

/-- The order in which slice files are handed to `read_parquet`:
`prev_data_slices.iter().rev()` mapped through `get_internal_url` (order-preserving). -/
def prev_data_paths (prev_data_slices : List Multihash) : List Multihash :=
  prev_data_slices.reverse

/-- `sliceRows` is the object repository: rows stored under each slice hash. -/
def get_all_previous_data (sliceRows : Multihash → List Row)
    (prev_data_slices : List Multihash) : Option (List Row) :=
  if prev_data_slices.isEmpty then none
  else some ((prev_data_paths prev_data_slices).map sliceRows).flatten

/-- Ground truth: the slices of a chain (newest-first block list) in oldest-to-newest
offset order. -/
def oldestToNewestSlices (blocks : List MetadataEvent) : List Multihash :=
  (blocks.filterMap (fun e =>
    match e with
    | .addData a => a.output_data.map (·.physical_hash)
    | _ => none)).reverse

/-! ## Watermark advancement (writer.rs `compute_offset_and_watermark`, lines 473-478) -/

/-- The `match prev_watermark { .. }` that makes the output watermark non-decreasing. -/
def advanceWatermark (prev_watermark : Option Time) (event_time_max : Time) : Option Time :=
  match prev_watermark with
  | none => some event_time_max
  | some prev => if prev < event_time_max then some event_time_max else some prev

/-- Reading the staged file's statistics back (writer.rs lines 382-481): min/max of the
offset column, max of the event-time column, then the watermark advancement. `none`
models the `assert_ne!(count, 0)` — the file is never empty on this path. -/
def compute_offset_and_watermark (rows : List AnnRow) (prev_watermark : Option Time) :
    Option (OffsetInterval × Option Time) :=
  match (rows.map (·.offset)).min?, (rows.map (·.offset)).max?,
      (rows.map (·.event_time)).max? with
  | some omin, some omax, some etmax =>
    some (⟨omin, omax⟩, advanceWatermark prev_watermark etmax)
  | _, _, _ => none

/-! ## System-column annotation (writer.rs `with_system_columns`, lines 215-311) -/

/-- Row order on event time, the `ORDER BY event_time ASC` of the window function. -/
def etLE (a b : Row) : Prop := a.event_time ≤ b.event_time

instance : DecidableRel etLE := fun a b =>
  inferInstanceAs (Decidable (a.event_time ≤ b.event_time))

/-- `row_number() OVER (ORDER BY event_time ASC)` forces a deterministic total order;
the single repartition makes the numbering global. -/
def sortByEventTime (rows : List Row) : List Row := List.insertionSort etLE rows

/-- Schema after annotation: `offset`, `system_time`, `event_time` first, then the
remaining user columns in their original relative order (writer.rs lines 300-309). -/
def annotatedSchema (vocab : DatasetVocabulary) (schema : ArrowSchema) : ArrowSchema :=
  let raw_wo_event_time := schema.filter (fun f => f.name ≠ vocab.event_time_column)
  let etField :=
    match schema.find? (fun f => f.name = vocab.event_time_column) with
    | some f => f
    | none => ⟨vocab.event_time_column, .timestamp .millisecond (some "UTC")⟩
  ⟨vocab.offset_column, .int64⟩ ::
    ⟨vocab.system_time_column, .timestamp .millisecond (some "UTC")⟩ ::
    etField :: raw_wo_event_time

/-- Row-level annotation: a literal `system_time` column; the event-time column filled
from `fallback_event_time` when the frame lacks one; `offset` as
`row_number() OVER (ORDER BY event_time ASC) + (start_offset - 1)` (`row_number` is
1-based). -/
def annotateRows (vocab : DatasetVocabulary) (schema : ArrowSchema) (rows : List Row)
    (system_time fallback_event_time : Time) (start_offset : Int) : List AnnRow :=
  let rows' :=
    if hasColumnWithUnqualifiedName schema vocab.event_time_column then rows
    else rows.map (fun r => { r with event_time := fallback_event_time })
  let sorted := sortByEventTime rows'
  ((List.range sorted.length).zip sorted).map (fun p =>
    { offset := ((p.1 : Int) + 1) + (start_offset - 1)
      system_time := system_time
      event_time := p.2.event_time
      payload := p.2.payload })

/-- `self.meta.last_offset.map(|e| e + 1).unwrap_or(0)` (writer.rs line 529). -/
def startOffset : Option Int → Int
  | some e => e + 1
  | none => 0

/-! ## Schema guard (writer.rs `validate_output_schema`, lines 313-324) -/

def validate_output_schema (prev_schema : Option ArrowSchema) (new_schema : ArrowSchema) :
    Except BadInputSchemaError Unit :=
  match prev_schema with
  | some p =>
    if p = new_schema then .ok ()
    else .error
      ⟨"Schema of the new slice differs from the schema defined by SetDataSchema event",
        new_schema⟩
  | none => .ok ()

/-! ## Writing the staged file (writer.rs `write_output`, lines 340-379)

The parquet round-trip is modelled as identity on the logical rows; a zero-row result
discards the file and yields `none`. -/

def write_output (rows : List AnnRow) : Option (List AnnRow) :=
  if rows.length > 0 then some rows else none

/-! ## Stage (writer.rs `stage`, lines 499-604) -/

/-- Commit-block parameters assembled by `stage` (`AddDataParams` from kamu-core,
modelled from the spec as the four fields the writer fills). -/
structure AddDataParams where
  input_checkpoint : Option Multihash
  output_data : Option OffsetInterval
  output_watermark : Option Time
  source_state : Option SourceState
deriving DecidableEq, Repr

structure WriteDataOpts where
  system_time : Time
  source_event_time : Time
  source_state : Option SourceState
deriving DecidableEq, Repr

structure StageDataResult where
  system_time : Time
  add_data : AddDataParams
  output_schema : Option ArrowSchema
  data_file : Option (List AnnRow)
deriving DecidableEq, Repr

/-- The writer's dynamically-dispatched collaborators used by `stage`: the object
repository holding slice rows and the `Arc<dyn MergeStrategy>`. -/
structure WriterEnv where
  sliceRows : Multihash → List Row
  mergeFn : Option (List Row) → List Row → Except MergeError (List Row)

/-- The body of `stage` up to (not including) the emptiness check: the
`let (add_data, output_schema, data_file) = if let Some(new_data) = new_data { .. }`
block (writer.rs lines 505-588). -/
def stagePrepare (w : DataWriterMetadataState) (env : WriterEnv)
    (new_data : Option (ArrowSchema × List Row)) (opts : WriteDataOpts) :
    Except StageDataError (AddDataParams × Option ArrowSchema × Option (List AnnRow)) :=
  match new_data with
  | some (schema₀, rows₀) =>
    match validate_input w.vocab schema₀ with
    | .error e => .error (.badInputSchema e)
    | .ok () =>
      let schema₁ := normalize_raw_result schema₀
      let prev := get_all_previous_data env.sliceRows w.data_slices
      match env.mergeFn prev rows₀ with
      | .error e => .error (.mergeError e)
      | .ok merged =>
        let ann := annotateRows w.vocab schema₁ merged opts.system_time
          opts.source_event_time (startOffset w.last_offset)
        let output_schema := annotatedSchema w.vocab schema₁
        match validate_output_schema w.schema output_schema with
        | .error e => .error (.badInputSchema e)
        | .ok () =>
          let data_file := write_output ann
          let input_checkpoint := w.last_checkpoint
          let source_state := opts.source_state
          let prev_watermark := w.last_watermark
          match data_file with
          | none =>
            .ok (⟨input_checkpoint, none, prev_watermark, source_state⟩,
              some output_schema, none)
          | some file =>
            match compute_offset_and_watermark file prev_watermark with
            | none => .error .internalError
            | some (offset_interval, output_watermark) =>
              .ok (⟨input_checkpoint, some offset_interval, output_watermark, source_state⟩,
                some output_schema, some file)
  | none =>
    .ok (⟨w.last_checkpoint, none, w.last_watermark, opts.source_state⟩, none, none)

/-- `stage`: prepare, then the "Do we have anything to commit?" check
(writer.rs lines 590-603). -/
def stage (w : DataWriterMetadataState) (env : WriterEnv)
    (new_data : Option (ArrowSchema × List Row)) (opts : WriteDataOpts) :
    Except StageDataError StageDataResult :=
  match stagePrepare w env new_data opts with
  | .error e => .error e
  | .ok (add_data, output_schema, data_file) =>
    if add_data.output_data = none ∧ add_data.output_watermark = w.last_watermark ∧
        opts.source_state = w.last_source_state then
      .error .emptyCommit
    else
      .ok ⟨opts.system_time, add_data, output_schema, data_file⟩

/-! ## Commit (writer.rs `commit`, lines 607-681) -/

structure CommitResult where
  new_head : Multihash
deriving DecidableEq, Repr

structure CommitOpts where
  system_time : Time
  prev_block_hash : Option Multihash
deriving DecidableEq, Repr

structure WriteDataResult where
  old_head : Multihash
  new_head : Multihash
  new_block : Block
deriving DecidableEq, Repr

/-- The `Arc<dyn Dataset>` capabilities `commit` uses, over an abstract dataset
state `σ`. -/
structure DatasetOps (σ : Type) where
  commit_event : MetadataEvent → CommitOpts → σ → σ × Except CommitError CommitResult
  commit_add_data : AddDataParams → Option (List AnnRow) → Option Multihash →
    CommitOpts → σ → σ × Except CommitError CommitResult
  get_block : Multihash → σ → Option Block

/-- The `AddData` half of `commit` (writer.rs lines 633-680): the data commit, the
read-back of the new block (`into_typed::<AddData>().unwrap()` modelled as an internal
error on a non-`AddData` block), and the projection refresh. `w₁` is the in-memory
state after the optional schema commit; `old_head` the head at call entry. -/
def commitData {σ : Type} (d : DatasetOps σ) (old_head : Multihash)
    (w₁ : DataWriterMetadataState) (ds₁ : σ) (staged : StageDataResult) :
    DataWriterMetadataState × σ × Except CommitError WriteDataResult :=
  let (ds₂, r) := d.commit_add_data staged.add_data staged.data_file none
    ⟨staged.system_time, some w₁.head⟩ ds₁
  match r with
  | .error e => (w₁, ds₂, .error e)
  | .ok cdr =>
    match d.get_block cdr.new_head ds₂ with
    | none => (w₁, ds₂, .error .internalError)
    | some new_block =>
      match new_block.event with
      | .addData ev =>
        let w₂ := { w₁ with head := cdr.new_head }
        let w₃ :=
          match ev.output_data with
          | some od =>
            { w₂ with
              last_offset := some od.interval.end_
              data_slices := w₂.data_slices ++ [od.physical_hash] }
          | none => w₂
        let w₄ :=
          { w₃ with
            last_checkpoint := ev.output_checkpoint
            last_watermark := ev.output_watermark
            last_source_state := ev.source_state }
        (w₄, ds₂, .ok ⟨old_head, cdr.new_head, new_block⟩)
      | _ => (w₁, ds₂, .error .internalError)

/-- `commit`: optional `SetDataSchema` commit (updating head and schema in place when
it succeeds, returning its error with the state untouched when it fails), then the
`AddData` commit. The returned writer state is the in-memory state at the point of
return, error or not — mirroring `&mut self` with `?` early returns. -/
def commit {σ : Type} (d : DatasetOps σ) (w : DataWriterMetadataState) (ds : σ)
    (staged : StageDataResult) :
    DataWriterMetadataState × σ × Except CommitError WriteDataResult :=
  match w.schema, staged.output_schema with
  | none, some output_schema =>
    (match d.commit_event (.setDataSchema output_schema)
        ⟨staged.system_time, some w.head⟩ ds with
     | (ds₁, .ok cr) =>
       commitData d w.head
         { w with head := cr.new_head, schema := some output_schema } ds₁ staged
     | (ds₁, .error e) => (w, ds₁, .error e))
  | _, _ => commitData d w.head w ds staged

/-! ## Write (writer.rs `write`, lines 489-497) -/

def write {σ : Type} (d : DatasetOps σ) (w : DataWriterMetadataState) (env : WriterEnv)
    (ds : σ) (new_data : Option (ArrowSchema × List Row)) (opts : WriteDataOpts) :
    DataWriterMetadataState × σ × Except WriteDataError WriteDataResult :=
  match stage w env new_data opts with
  | .error e => (w, ds, .error (ofStageDataError e))
  | .ok staged =>
    let (w', ds', r) := commit d w ds staged
    (w', ds',
      match r with
      | .ok v => .ok v
      | .error e => .error (.commitError e))

/-! ## Metadata-chain scan (writer.rs `with_metadata_state_scanned`, lines 726-855)

`iter_blocks_interval(&head, None, false)` yields blocks newest-first; the model takes
the chain as that newest-first list of events. Rust panics (`unimplemented!`,
`unreachable!`, failed `assert!`) are modelled as a `fatal` error variant. -/

inductive ScanMetadataError
  | sourceNotFound (source_name : Option String) (message : String)
  | internalError
  | fatal (message : String)
deriving DecidableEq, Repr

/-- The scan's mutable locals (writer.rs lines 740-747). -/
structure ScanAcc where
  schema : Option ArrowSchema
  source_event : Option MetadataEvent
  data_slices : List Multihash
  last_checkpoint : Option (Option Multihash)
  last_watermark : Option (Option Time)
  last_source_state : Option (Option SourceState)
  vocab : Option DatasetVocabularyRaw
  last_offset : Option Int
deriving DecidableEq, Repr

def scanInit : ScanAcc := ⟨none, none, [], none, none, none, none, none⟩

/-- One iteration of the `while let Some((_, block))` loop (writer.rs lines 756-824). -/
def scanStep (source_name : Option String) (acc : ScanAcc) :
    MetadataEvent → Except ScanMetadataError ScanAcc
  | .setDataSchema s =>
    .ok (if acc.schema.isNone then { acc with schema := some s } else acc)
  | .addData e =>
    let acc₁ :=
      match e.output_data with
      | some od =>
        { acc with
          data_slices := acc.data_slices ++ [od.physical_hash]
          last_offset := if acc.last_offset.isNone then some od.interval.end_
            else acc.last_offset }
      | none => acc
    let acc₂ :=
      if acc₁.last_checkpoint.isNone then { acc₁ with last_checkpoint := some e.output_checkpoint }
      else acc₁
    let acc₃ :=
      if acc₂.last_watermark.isNone then { acc₂ with last_watermark := some e.output_watermark }
      else acc₂
    let acc₄ :=
      if acc₃.last_source_state.isNone then { acc₃ with last_source_state := some e.source_state }
      else acc₃
    .ok acc₄
  | .setWatermark t =>
    .ok (if acc.last_watermark.isNone then { acc with last_watermark := some (some t) } else acc)
  | .setPollingSource m =>
    if source_name.isSome then
      .error (.sourceNotFound source_name "Expected a named push source, but found polling source")
    else
      .ok (if acc.source_event.isNone then { acc with source_event := some (.setPollingSource m) }
        else acc)
  | .disablePollingSource => .error (.fatal "Disabling sources is not yet fully supported")
  | .addPushSource n m =>
    .ok (if acc.source_event.isNone then
        (if source_name = n then { acc with source_event := some (.addPushSource n m) } else acc)
      else acc)
  | .disablePushSource => .error (.fatal "Disabling sources is not yet fully supported")
  | .setVocab v => .ok { acc with vocab := some v }
  | .seed k => if k = .root then .ok acc else .error (.fatal "assert dataset_kind == Root")
  | .executeQuery => .error (.fatal "unreachable")
  | .setAttachments => .ok acc
  | .setInfo => .ok acc
  | .setLicense => .ok acc
  | .setTransform => .ok acc

def scanChain (source_name : Option String) :
    List MetadataEvent → ScanAcc → Except ScanMetadataError ScanAcc
  | [], acc => .ok acc
  | e :: rest, acc =>
    match scanStep source_name acc e with
    | .error err => .error err
    | .ok acc' => scanChain source_name rest acc'

/-- Active merge-strategy derivation after the scan (writer.rs lines 827-841). -/
def resolveMergeStrategy (source_event : Option MetadataEvent) (source_name : Option String) :
    Except ScanMetadataError MergeStrategyConf :=
  match source_event, source_name with
  | some (.setPollingSource m), _ => .ok m
  | some (.addPushSource _ m), _ => .ok m
  | some _, _ => .error (.fatal "unreachable")
  | none, none => .ok .append
  | none, some s => .error (.sourceNotFound (some s) ("Source '" ++ s ++ "' not found"))

def with_metadata_state_scanned (head : Multihash) (blocks : List MetadataEvent)
    (source_name : Option String) : Except ScanMetadataError DataWriterMetadataState :=
  match scanChain source_name blocks scanInit with
  | .error e => .error e
  | .ok acc =>
    match resolveMergeStrategy acc.source_event source_name with
    | .error e => .error e
    | .ok merge_strategy =>
      .ok
        { head := head
          schema := acc.schema
          source_event := acc.source_event
          merge_strategy := merge_strategy
          vocab := resolveVocab (acc.vocab.getD defaultVocabRaw)
          data_slices := acc.data_slices
          last_offset := acc.last_offset
          last_checkpoint := acc.last_checkpoint.getD none
          last_watermark := acc.last_watermark.getD none
          last_source_state := acc.last_source_state.getD none }

/-- The `SetVocab` payload of an event, if any. -/
def vocabOf : MetadataEvent → Option DatasetVocabularyRaw
  | .setVocab v => some v
  | _ => none

/-! ## A concrete metadata chain

Modelled from the spec: the metadata-chain side of `commit_event` / `commit_add_data`
(implemented outside `src/`, in the dataset layer): each commit is a conditional CAS
on `prev_block_hash` against the persisted head, appends one block carrying the event,
and returns the new head; `commit_add_data` builds the `AddData` event from the staged
params, the content hash of the staged file, and the explicitly passed (here always
absent) checkpoint — "output_checkpoint (reserved; `None` here)". -/

structure ChainState where
  blocks : List (Multihash × Block)
  head : Multihash
  next_hash : Multihash
deriving Repr

def chainCommitEvent (event : MetadataEvent) (opts : CommitOpts) (c : ChainState) :
    ChainState × Except CommitError CommitResult :=
  if opts.prev_block_hash = some c.head then
    let h := c.next_hash
    ({ blocks := (h, ⟨some c.head, opts.system_time, event⟩) :: c.blocks
       head := h
       next_hash := h + 1 },
      .ok ⟨h⟩)
  else (c, .error (.commitFailed 1))

/-- The `AddData` event a chain commit builds from the staged params, the staged
file's content hash, and the explicitly passed checkpoint. -/
def builtAddDataEvent (hashFile : List AnnRow → Multihash) (params : AddDataParams)
    (data_file : Option (List AnnRow)) (checkpoint : Option Multihash) : AddDataEvent :=
  { input_checkpoint := params.input_checkpoint
    output_data :=
      match params.output_data, data_file with
      | some interval, some f => some ⟨hashFile f, interval⟩
      | _, _ => none
    output_checkpoint := checkpoint
    output_watermark := params.output_watermark
    source_state := params.source_state }

def chainCommitAddData (hashFile : List AnnRow → Multihash) (params : AddDataParams)
    (data_file : Option (List AnnRow)) (checkpoint : Option Multihash) (opts : CommitOpts)
    (c : ChainState) : ChainState × Except CommitError CommitResult :=
  chainCommitEvent (.addData (builtAddDataEvent hashFile params data_file checkpoint)) opts c

def chainGetBlock (h : Multihash) (c : ChainState) : Option Block :=
  (c.blocks.find? (fun p => p.1 = h)).map (·.2)

def chainOps (hashFile : List AnnRow → Multihash) : DatasetOps ChainState :=
  ⟨chainCommitEvent, chainCommitAddData hashFile, chainGetBlock⟩

/-! ## Concrete fixtures used by witnesses and counterexamples -/

def fixVocab : DatasetVocabulary := resolveVocab defaultVocabRaw

def fixW : DataWriterMetadataState :=
  { head := 10
    schema := some [⟨"offset", .int64⟩]
    source_event := none
    merge_strategy := .append
    vocab := fixVocab
    data_slices := []
    last_offset := none
    last_checkpoint := none
    last_watermark := some 100
    last_source_state := some 7 }

def fixEnv : WriterEnv := ⟨fun _ => [], fun _ n => .ok n⟩

def fixOpts : WriteDataOpts := ⟨5000, 200, some 7⟩

/-- Trivial dataset ops over `Nat` whose `AddData` commit always fails. -/
def fixOpsFail : DatasetOps Nat :=
  ⟨fun _ _ s => (s + 1, .ok ⟨42⟩),
    fun _ _ _ _ s => (s + 5, .error (.commitFailed 3)),
    fun _ _ => none⟩

def fixSchema8 : ArrowSchema := [⟨"x", .int64⟩]

def fixW8 : DataWriterMetadataState := { fixW with schema := none }

def fixStaged8 : StageDataResult :=
  ⟨5000, ⟨none, some ⟨0, 1⟩, some 60, some 7⟩, some fixSchema8, some [⟨0, 5000, 60, 1⟩]⟩

/-- Events whose scan handler can write `last_watermark`. -/
def touchesWatermark : MetadataEvent → Bool
  | .addData _ => true
  | .setWatermark _ => true
  | _ => false

def fixVocabChain : List MetadataEvent :=
  [.setVocab ⟨some "o1", none, none⟩, .setVocab ⟨some "o2", none, none⟩, .seed .root]

def fixVocabScanState : DataWriterMetadataState :=
  { head := 0
    schema := none
    source_event := none
    merge_strategy := .append
    vocab := ⟨"o2", "system_time", "event_time"⟩
    data_slices := []
    last_offset := none
    last_checkpoint := none
    last_watermark := none
    last_source_state := none }

def fixC10Event : AddDataEvent := ⟨none, some ⟨3, ⟨0, 1⟩⟩, none, none, none⟩

def fixC10Chain : List MetadataEvent :=
  [.addData fixC10Event, .setWatermark 5, .seed .root]

def fixC10State : DataWriterMetadataState :=
  { head := 0
    schema := none
    source_event := none
    merge_strategy := .append
    vocab := fixVocab
    data_slices := [3]
    last_offset := some 1
    last_checkpoint := none
    last_watermark := none
    last_source_state := none }

def fixHash : List AnnRow → Multihash := fun _ => 99

def fixW9 : DataWriterMetadataState := { fixW with head := 0, last_checkpoint := some 5 }

def fixC9Chain : ChainState := ⟨[], 0, 1⟩

def fixStaged9 : StageDataResult := ⟨5000, ⟨some 5, none, some 100, some 8⟩, none, none⟩

def fixBlock9 : Block :=
  ⟨some 0, 5000, .addData ⟨some 5, none, none, some 100, some 8⟩⟩

def fixW9' : DataWriterMetadataState :=
  { fixW9 with
    head := 1
    last_checkpoint := none
    last_watermark := some 100
    last_source_state := some 8 }

def fixC9Chain' : ChainState := ⟨[(1, fixBlock9)], 1, 2⟩

def tsMs : DataType := .timestamp .millisecond (some "UTC")

def fixSchemaC4 : ArrowSchema :=
  [⟨"offset", .int64⟩, ⟨"system_time", tsMs⟩, ⟨"event_time", tsMs⟩, ⟨"v", .int64⟩]

def fixChainC4 : List MetadataEvent :=
  [.addData ⟨none, some ⟨11, ⟨0, 1⟩⟩, none, some 50, none⟩,
   .setDataSchema fixSchemaC4, .seed .root]

def fixWC4 : DataWriterMetadataState :=
  { head := 20
    schema := some fixSchemaC4
    source_event := none
    merge_strategy := .append
    vocab := fixVocab
    data_slices := [11]
    last_offset := some 1
    last_checkpoint := none
    last_watermark := some 50
    last_source_state := none }

def fixEnvC4 : WriterEnv :=
  ⟨fun h => if h = 11 then [⟨40, 0⟩, ⟨50, 1⟩] else [], fun _ n => .ok n⟩

def fixBatchC4 : ArrowSchema × List Row :=
  ([⟨"event_time", tsMs⟩, ⟨"v", .int64⟩], [⟨60, 5⟩])

def fixCsC4 : ChainState :=
  ⟨[(20, ⟨some 19, 0, .addData ⟨none, some ⟨11, ⟨0, 1⟩⟩, none, some 50, none⟩⟩),
    (19, ⟨some 18, 0, .setDataSchema fixSchemaC4⟩),
    (18, ⟨none, 0, .seed .root⟩)], 20, 21⟩

def fixStagedC4 : StageDataResult :=
  ⟨5000, ⟨none, some ⟨2, 2⟩, some 60, some 7⟩, some fixSchemaC4,
    some [⟨2, 5000, 60, 5⟩]⟩

def fixBlockC4 : Block :=
  ⟨some 20, 5000, .addData ⟨none, some ⟨99, ⟨2, 2⟩⟩, none, some 60, some 7⟩⟩

end KamuWriter

namespace KamuWriter

/-! # Theorems -/

/-- C2: the output watermark computed by `compute_offset_and_watermark` from the prior
watermark `W` and the staged file's maximum event time `T` is `max(W, T)`, an absent
prior watermark acting as `-∞`: absent `W` gives `T`; `W < T` gives `T`; otherwise `W`.
Since `W ≤ max W T` and `T ≤ max W T`, the watermark never decreases block-to-block. -/
theorem output_watermark_is_max (W T : Time) :
    advanceWatermark none T = some T
    ∧ advanceWatermark (some W) T = some (max W T)
    ∧ (W < T → advanceWatermark (some W) T = some T)
    ∧ (¬W < T → advanceWatermark (some W) T = some W)
    ∧ W ≤ max W T ∧ T ≤ max W T := by
  refine ⟨rfl, ?_, ?_, ?_, le_max_left W T, le_max_right W T⟩
  · show (if W < T then some T else some W) = some (max W T)
    split_ifs with h
    · rw [max_eq_right h.le]
    · rw [max_eq_left (not_lt.mp h)]
  · intro h
    simp [advanceWatermark, if_pos h]
  · intro h
    simp [advanceWatermark, if_neg h]

theorem output_watermark_is_max_witness :
    advanceWatermark (some 3) 7 = some 7 ∧ advanceWatermark (some 9) 7 = some 9 :=
  ⟨(output_watermark_is_max 3 7).2.2.1 (by decide),
    (output_watermark_is_max 9 7).2.2.2.1 (by decide)⟩

/-- C6: `validate_input` succeeds exactly when the batch has no column named after the
vocabulary's offset or system-time column and any column named after the event-time
column is Date32, Date64 or a Timestamp; a validation failure surfaces from `stage`
as `BadInputSchema`. -/
theorem validate_input_rejects (w : DataWriterMetadataState) (env : WriterEnv)
    (schema : ArrowSchema) (rows : List Row) (opts : WriteDataOpts)
    (e : BadInputSchemaError) :
    (validate_input w.vocab schema = .ok () ↔
      (hasColumnWithUnqualifiedName schema w.vocab.offset_column = false
        ∧ hasColumnWithUnqualifiedName schema w.vocab.system_time_column = false
        ∧ (match schema.find? (fun f => f.name = w.vocab.event_time_column) with
            | some f => isValidEventTimeType f.dtype
            | none => true) = true))
    ∧ (validate_input w.vocab schema = .error e →
        stage w env (some (schema, rows)) opts = .error (.badInputSchema e)) := by
  constructor
  · unfold validate_input
    split_ifs with h₁ h₂
    · simp [h₁]
    · simp [h₁, h₂]
    · cases hf : schema.find? (fun f => f.name = w.vocab.event_time_column) with
      | none => simp [h₁, h₂]
      | some f =>
        by_cases ht : isValidEventTimeType f.dtype
        · simp [h₁, h₂, ht]
        · simp [h₁, h₂, ht]
  · intro h
    simp [stage, stagePrepare, h]

theorem validate_input_rejects_witness :
    validate_input fixW.vocab [⟨"offset", .int64⟩] =
      .error ⟨"Data contains a column that conflicts with the system column name: offset",
        [⟨"offset", .int64⟩]⟩
    ∧ stage fixW fixEnv (some ([⟨"offset", .int64⟩], [])) fixOpts =
      .error (.badInputSchema
        ⟨"Data contains a column that conflicts with the system column name: offset",
          [⟨"offset", .int64⟩]⟩) :=
  ⟨rfl,
    (validate_input_rejects fixW fixEnv [⟨"offset", .int64⟩] [] fixOpts
      ⟨"Data contains a column that conflicts with the system column name: offset",
        [⟨"offset", .int64⟩]⟩).2 rfl⟩

/-- C1: `stage` fails with `EmptyCommit` exactly when the staged `AddDataParams` has no
output-data interval, its output watermark equals the writer's `last_watermark`, and
`opts.source_state` equals the writer's `last_source_state`; when any of the three
differs it returns the `StageDataResult`; and with no batch and an unchanged source
state it always fails with `EmptyCommit`. -/
theorem stage_emptyCommit_iff (w : DataWriterMetadataState) (env : WriterEnv)
    (new_data : Option (ArrowSchema × List Row)) (opts : WriteDataOpts)
    (a : AddDataParams) (s : Option ArrowSchema) (f : Option (List AnnRow))
    (hp : stagePrepare w env new_data opts = .ok (a, s, f)) :
    (stage w env new_data opts = .error .emptyCommit ↔
      (a.output_data = none ∧ a.output_watermark = w.last_watermark
        ∧ opts.source_state = w.last_source_state))
    ∧ (new_data = none → opts.source_state = w.last_source_state →
        stage w env new_data opts = .error .emptyCommit)
    ∧ (¬(a.output_data = none ∧ a.output_watermark = w.last_watermark
          ∧ opts.source_state = w.last_source_state) →
        stage w env new_data opts = .ok ⟨opts.system_time, a, s, f⟩) := by
  have hstage : stage w env new_data opts =
      if a.output_data = none ∧ a.output_watermark = w.last_watermark
          ∧ opts.source_state = w.last_source_state then
        .error .emptyCommit
      else
        .ok ⟨opts.system_time, a, s, f⟩ := by
    simp [stage, hp]
  refine ⟨?_, ?_, ?_⟩
  · rw [hstage]
    split_ifs with h
    · simp [h]
    · simp [h]
  · intro hnd hss
    subst hnd
    have : a = ⟨w.last_checkpoint, none, w.last_watermark, opts.source_state⟩ := by
      simp [stagePrepare] at hp
      exact hp.1.symm
    rw [hstage, if_pos ⟨by rw [this], by rw [this], hss⟩]
  · intro h
    rw [hstage, if_neg h]

theorem stage_emptyCommit_iff_witness :
    stagePrepare fixW fixEnv none fixOpts =
      .ok (⟨none, none, some 100, some 7⟩, none, none)
    ∧ stage fixW fixEnv none fixOpts = .error .emptyCommit :=
  ⟨rfl,
    (stage_emptyCommit_iff fixW fixEnv none fixOpts
      ⟨none, none, some 100, some 7⟩ none none rfl).2.1 rfl rfl⟩

/-- C7: `write` is exactly `stage` followed by `commit`: a stage error is propagated
through `From<StageDataError> for WriteDataError` with the writer and dataset untouched
(commit is never invoked), a stage success is handed to `commit` whose result is
returned, and the error conversion is the identity on each of the four stage error
kinds. -/
theorem write_is_stage_then_commit {σ : Type} (d : DatasetOps σ)
    (w : DataWriterMetadataState) (env : WriterEnv) (ds : σ)
    (new_data : Option (ArrowSchema × List Row)) (opts : WriteDataOpts) :
    (∀ e, stage w env new_data opts = .error e →
      write d w env ds new_data opts = (w, ds, .error (ofStageDataError e)))
    ∧ (∀ s, stage w env new_data opts = .ok s →
      write d w env ds new_data opts =
        ((commit d w ds s).1, (commit d w ds s).2.1,
          match (commit d w ds s).2.2 with
          | .ok v => .ok v
          | .error e => .error (.commitError e)))
    ∧ (∀ b, ofStageDataError (.badInputSchema b) = .badInputSchema b)
    ∧ (∀ m, ofStageDataError (.mergeError m) = .mergeError m)
    ∧ ofStageDataError .emptyCommit = .emptyCommit
    ∧ ofStageDataError .internalError = .internalError := by
  refine ⟨?_, ?_, fun _ => rfl, fun _ => rfl, rfl, rfl⟩
  · intro e h
    simp [write, h]
  · intro s h
    rcases hc : commit d w ds s with ⟨w', ds', r⟩
    simp [write, h, hc]

theorem write_is_stage_then_commit_witness :
    write fixOpsFail fixW fixEnv 0 none fixOpts =
      (fixW, 0, .error .emptyCommit) :=
  (write_is_stage_then_commit fixOpsFail fixW fixEnv 0 none fixOpts).1 .emptyCommit rfl

instance : IsTotal Row etLE := ⟨fun a b => le_total a.event_time b.event_time⟩

instance : IsTrans Row etLE := ⟨fun _ _ _ h₁ h₂ => le_trans h₁ h₂⟩

theorem zip_range_map_index {α β : Type} (l : List α) (g : Nat → β) :
    ((List.range l.length).zip l).map (fun p => g p.1) = (List.range l.length).map g := by
  have h : ((List.range l.length).zip l).map Prod.fst = List.range l.length :=
    List.map_fst_zip _ _ (by simp)
  calc ((List.range l.length).zip l).map (fun p => g p.1)
      = (((List.range l.length).zip l).map Prod.fst).map g := by rw [List.map_map]; rfl
    _ = (List.range l.length).map g := by rw [h]

theorem zip_range_map_elem {α β : Type} (l : List α) (g : α → β) :
    ((List.range l.length).zip l).map (fun p => g p.2) = l.map g := by
  have h : ((List.range l.length).zip l).map Prod.snd = l :=
    List.map_snd_zip _ _ (by simp)
  calc ((List.range l.length).zip l).map (fun p => g p.2)
      = (((List.range l.length).zip l).map Prod.snd).map g := by rw [List.map_map]; rfl
    _ = l.map g := by rw [h]

/-- C3: for a merged batch of `n` rows the annotated frame's offset column is exactly
`start_offset, start_offset+1, …, start_offset+n-1` (`row_number()` ordered by event
time ascending plus `start_offset - 1`), the annotated rows are in ascending event-time
order, they are a permutation of the (event-time-defaulted) input rows, and
`start_offset` is `last_offset + 1` when `last_offset` is set and `0` otherwise. -/
theorem annotate_offsets_contiguous (vocab : DatasetVocabulary) (schema : ArrowSchema)
    (rows : List Row) (st ft : Time) (start eo : Int) :
    ((annotateRows vocab schema rows st ft start).map (·.offset) =
      (List.range rows.length).map (fun i : Nat => start + (i : Int)))
    ∧ List.Pairwise (fun a b : AnnRow => a.event_time ≤ b.event_time)
        (annotateRows vocab schema rows st ft start)
    ∧ ((annotateRows vocab schema rows st ft start).map
          (fun r => (r.event_time, r.payload))).Perm
        ((if hasColumnWithUnqualifiedName schema vocab.event_time_column then rows
          else rows.map (fun r => { r with event_time := ft })).map
          (fun r => (r.event_time, r.payload)))
    ∧ startOffset (some eo) = eo + 1 ∧ startOffset none = 0 := by
  set rows' : List Row :=
    if hasColumnWithUnqualifiedName schema vocab.event_time_column then rows
    else rows.map (fun r => { r with event_time := ft }) with hrows'
  have hlen' : rows'.length = rows.length := by
    rw [hrows']
    split_ifs <;> simp
  set sorted : List Row := sortByEventTime rows' with hsorted
  have hslen : sorted.length = rows.length := by
    rw [hsorted, sortByEventTime, List.length_insertionSort, hlen']
  have hann : annotateRows vocab schema rows st ft start =
      ((List.range sorted.length).zip sorted).map (fun p =>
        { offset := ((p.1 : Int) + 1) + (start - 1)
          system_time := st
          event_time := p.2.event_time
          payload := p.2.payload }) := rfl
  have hsortedPW : List.Pairwise etLE sorted := List.sorted_insertionSort etLE rows'
  refine ⟨?_, ?_, ?_, rfl, rfl⟩
  · have h₁ : (annotateRows vocab schema rows st ft start).map (·.offset) =
        (List.range sorted.length).map (fun i : Nat => ((i : Int) + 1) + (start - 1)) := by
      rw [hann, List.map_map]
      exact zip_range_map_index sorted (fun i : Nat => ((i : Int) + 1) + (start - 1))
    rw [h₁, hslen]
    apply List.map_congr_left
    intro i _
    omega
  · have hsnd : ((List.range sorted.length).zip sorted).map Prod.snd = sorted :=
      List.map_snd_zip _ _ (by simp)
    have hzip : ((List.range sorted.length).zip sorted).Pairwise (fun p q => etLE p.2 q.2) :=
      List.pairwise_map.mp
        (show List.Pairwise etLE (((List.range sorted.length).zip sorted).map Prod.snd) by
          rw [hsnd]; exact hsortedPW)
    rw [hann]
    exact hzip.map _ (fun p q h => h)
  · have h₂ : (annotateRows vocab schema rows st ft start).map
        (fun r => (r.event_time, r.payload)) =
        sorted.map (fun r : Row => (r.event_time, r.payload)) := by
      rw [hann, List.map_map]
      exact zip_range_map_elem sorted (fun r : Row => (r.event_time, r.payload))
    rw [h₂]
    exact (List.perm_insertionSort etLE rows').map _

theorem scanStep_vocab (sn : Option String) (acc : ScanAcc) (e : MetadataEvent)
    (acc' : ScanAcc) (h : scanStep sn acc e = .ok acc') :
    acc'.vocab = match vocabOf e with
      | some v => some v
      | none => acc.vocab := by
  cases e with
  | seed k =>
    simp only [scanStep] at h
    split_ifs at h
    cases h
    rfl
  | setDataSchema s =>
    simp only [scanStep, Except.ok.injEq] at h
    subst h
    split_ifs <;> rfl
  | addData a =>
    obtain ⟨ic, od, oc, ow, ss⟩ := a
    simp only [scanStep, Except.ok.injEq] at h
    subst h
    cases od <;> split_ifs <;> rfl
  | setWatermark t =>
    simp only [scanStep, Except.ok.injEq] at h
    subst h
    split_ifs <;> rfl
  | setPollingSource m =>
    simp only [scanStep] at h
    split_ifs at h <;> cases h <;> rfl
  | disablePollingSource =>
    simp only [scanStep] at h
    cases h
  | addPushSource n m =>
    simp only [scanStep, Except.ok.injEq] at h
    subst h
    split_ifs <;> rfl
  | disablePushSource =>
    simp only [scanStep] at h
    cases h
  | setVocab v =>
    simp only [scanStep, Except.ok.injEq] at h
    subst h
    rfl
  | executeQuery =>
    simp only [scanStep] at h
    cases h
  | setAttachments =>
    simp only [scanStep, Except.ok.injEq] at h
    subst h
    rfl
  | setInfo =>
    simp only [scanStep, Except.ok.injEq] at h
    subst h
    rfl
  | setLicense =>
    simp only [scanStep, Except.ok.injEq] at h
    subst h
    rfl
  | setTransform =>
    simp only [scanStep, Except.ok.injEq] at h
    subst h
    rfl

theorem scanChain_vocab (sn : Option String) (blocks : List MetadataEvent) :
    ∀ acc acc', scanChain sn blocks acc = .ok acc' →
      acc'.vocab = match (blocks.filterMap vocabOf).getLast? with
        | some v => some v
        | none => acc.vocab := by
  induction blocks with
  | nil =>
    intro acc acc' h
    cases h
    rfl
  | cons e rest ih =>
    intro acc acc' h
    cases hstep : scanStep sn acc e with
    | error err => simp [scanChain, hstep] at h
    | ok acc₁ =>
      simp only [scanChain, hstep] at h
      have hv := scanStep_vocab sn acc e acc₁ hstep
      have hr := ih acc₁ acc' h
      rw [List.filterMap_cons]
      cases hve : vocabOf e with
      | none =>
        rw [hr]
        cases hgl : (rest.filterMap vocabOf).getLast? <;> simp [hgl, hve, hv]
      | some v =>
        rw [hr]
        cases hL : rest.filterMap vocabOf with
        | nil => simp [hL, hve, hv]
        | cons x xs =>
          cases hgl : (x :: xs).getLast? with
          | none => exact absurd hgl (by simp)
          | some u => simp [hL, hgl, hve, hv]

/-- C5 counterexample: with two `SetVocab` events on the chain (`o1` newest, `o2`
oldest) the scan projects the vocabulary of the oldest one, not the newest — the
handler overwrites `vocab` unconditionally while iterating newest-to-oldest. -/
theorem vocab_newest_loses :
    (with_metadata_state_scanned 0 fixVocabChain none).map (·.vocab) =
      .ok (resolveVocab ⟨some "o2", none, none⟩)
    ∧ resolveVocab ⟨some "o2", none, none⟩ ≠ resolveVocab ⟨some "o1", none, none⟩ :=
  ⟨rfl, by decide⟩

/-- C5 (amended): during the metadata-chain scan, when multiple `SetVocab` events
exist the projected vocabulary is that of the oldest `SetVocab` event (the scan
overwrites the vocabulary at each `SetVocab` it encounters while walking newest to
oldest, so the last one processed — the oldest — wins); when none exists the
vocabulary resolves to defaults. -/
theorem scanned_vocab_oldest_wins (head : Multihash) (blocks : List MetadataEvent)
    (sn : Option String) (st : DataWriterMetadataState)
    (h : with_metadata_state_scanned head blocks sn = .ok st) :
    st.vocab = resolveVocab (((blocks.filterMap vocabOf).getLast?).getD defaultVocabRaw) := by
  cases hscan : scanChain sn blocks scanInit with
  | error e => simp [with_metadata_state_scanned, hscan] at h
  | ok acc =>
    cases hms : resolveMergeStrategy acc.source_event sn with
    | error e => simp [with_metadata_state_scanned, hscan, hms] at h
    | ok ms =>
      simp only [with_metadata_state_scanned, hscan, hms, Except.ok.injEq] at h
      subst h
      have hv := scanChain_vocab sn blocks scanInit acc hscan
      show resolveVocab (acc.vocab.getD defaultVocabRaw) = _
      cases hgl : (blocks.filterMap vocabOf).getLast? with
      | some v =>
        rw [hgl] at hv
        rw [hv]
      | none =>
        rw [hgl] at hv
        rw [hv]
        rfl

theorem scanned_vocab_oldest_wins_witness :
    with_metadata_state_scanned 0 fixVocabChain none = .ok fixVocabScanState
    ∧ fixVocabScanState.vocab =
      resolveVocab (((fixVocabChain.filterMap vocabOf).getLast?).getD defaultVocabRaw) :=
  ⟨rfl, scanned_vocab_oldest_wins 0 fixVocabChain none fixVocabScanState rfl⟩

theorem scanStep_lw (sn : Option String) (acc : ScanAcc) (e : MetadataEvent)
    (acc' : ScanAcc) (h : scanStep sn acc e = .ok acc') :
    acc'.last_watermark = match e with
      | .addData a =>
        if acc.last_watermark.isNone then some a.output_watermark else acc.last_watermark
      | .setWatermark t =>
        if acc.last_watermark.isNone then some (some t) else acc.last_watermark
      | _ => acc.last_watermark := by
  cases e with
  | seed k =>
    simp only [scanStep] at h
    split_ifs at h
    cases h
    rfl
  | setDataSchema s =>
    simp only [scanStep, Except.ok.injEq] at h
    subst h
    split_ifs <;> rfl
  | addData a =>
    obtain ⟨ic, od, oc, ow, ss⟩ := a
    simp only [scanStep, Except.ok.injEq] at h
    subst h
    cases od <;> by_cases hlw : acc.last_watermark.isNone <;> simp [hlw] <;>
      split_ifs <;> simp_all
  | setWatermark t =>
    simp only [scanStep, Except.ok.injEq] at h
    subst h
    by_cases hlw : acc.last_watermark.isNone <;> simp [hlw]
  | setPollingSource m =>
    simp only [scanStep] at h
    split_ifs at h <;> cases h <;> rfl
  | disablePollingSource =>
    simp only [scanStep] at h
    cases h
  | addPushSource n m =>
    simp only [scanStep, Except.ok.injEq] at h
    subst h
    split_ifs <;> rfl
  | disablePushSource =>
    simp only [scanStep] at h
    cases h
  | setVocab v =>
    simp only [scanStep, Except.ok.injEq] at h
    subst h
    rfl
  | executeQuery =>
    simp only [scanStep] at h
    cases h
  | setAttachments =>
    simp only [scanStep, Except.ok.injEq] at h
    subst h
    rfl
  | setInfo =>
    simp only [scanStep, Except.ok.injEq] at h
    subst h
    rfl
  | setLicense =>
    simp only [scanStep, Except.ok.injEq] at h
    subst h
    rfl
  | setTransform =>
    simp only [scanStep, Except.ok.injEq] at h
    subst h
    rfl

theorem scanChain_append (sn : Option String) (l₁ l₂ : List MetadataEvent) :
    ∀ acc, scanChain sn (l₁ ++ l₂) acc =
      match scanChain sn l₁ acc with
      | .error e => .error e
      | .ok a => scanChain sn l₂ a := by
  induction l₁ with
  | nil => intro acc; rfl
  | cons e rest ih =>
    intro acc
    cases hstep : scanStep sn acc e with
    | error err => simp [scanChain, hstep]
    | ok a₁ => simp [scanChain, hstep, ih a₁]

theorem scanChain_lw_stable (sn : Option String) (blocks : List MetadataEvent) :
    ∀ acc acc' x, acc.last_watermark = some x → scanChain sn blocks acc = .ok acc' →
      acc'.last_watermark = some x := by
  induction blocks with
  | nil =>
    intro acc acc' x hx h
    cases h
    exact hx
  | cons e rest ih =>
    intro acc acc' x hx h
    cases hstep : scanStep sn acc e with
    | error err => simp [scanChain, hstep] at h
    | ok a₁ =>
      simp only [scanChain, hstep] at h
      refine ih a₁ acc' x ?_ h
      rw [scanStep_lw sn acc e a₁ hstep]
      cases e <;> simp [hx]

theorem scanChain_lw_untouched (sn : Option String) :
    ∀ (blocks : List MetadataEvent) acc acc',
      (∀ e ∈ blocks, touchesWatermark e = false) →
      scanChain sn blocks acc = .ok acc' → acc'.last_watermark = acc.last_watermark := by
  intro blocks
  induction blocks with
  | nil =>
    intro acc acc' _ h
    cases h
    rfl
  | cons e rest ih =>
    intro acc acc' hb h
    cases hstep : scanStep sn acc e with
    | error err => simp [scanChain, hstep] at h
    | ok a₁ =>
      simp only [scanChain, hstep] at h
      have h₁ : a₁.last_watermark = acc.last_watermark := by
        have he := hb e (List.mem_cons_self e rest)
        rw [scanStep_lw sn acc e a₁ hstep]
        cases e <;> first
          | rfl
          | simp [touchesWatermark] at he
      rw [ih a₁ acc' (fun e' he' => hb e' (List.mem_cons_of_mem _ he')) h, h₁]

/-- C10: when the newest `AddData` block (no newer `SetWatermark` or `AddData` exists
above it) carries no `output_watermark`, the scan fixes `last_watermark` to
`Some(None)`, the projected `last_watermark` is `None`, and any older `SetWatermark`
below it is not adopted because `last_watermark` is already set. -/
theorem newest_addData_fixes_watermark (head : Multihash) (sn : Option String)
    (pre post : List MetadataEvent) (a : AddDataEvent) (st : DataWriterMetadataState)
    (hwm : a.output_watermark = none)
    (hpre : ∀ e ∈ pre, touchesWatermark e = false)
    (h : with_metadata_state_scanned head (pre ++ .addData a :: post) sn = .ok st) :
    st.last_watermark = none := by
  cases hscan : scanChain sn (pre ++ .addData a :: post) scanInit with
  | error e => simp [with_metadata_state_scanned, hscan] at h
  | ok acc =>
    cases hms : resolveMergeStrategy acc.source_event sn with
    | error e => simp [with_metadata_state_scanned, hscan, hms] at h
    | ok ms =>
      simp only [with_metadata_state_scanned, hscan, hms, Except.ok.injEq] at h
      subst h
      show acc.last_watermark.getD none = none
      rw [scanChain_append sn pre (.addData a :: post) scanInit] at hscan
      cases hpre' : scanChain sn pre scanInit with
      | error e => simp [hpre'] at hscan
      | ok acc₁ =>
        simp only [hpre'] at hscan
        have hlw₁ : acc₁.last_watermark = none :=
          (scanChain_lw_untouched sn pre scanInit acc₁ hpre hpre').trans rfl
        obtain ⟨acc₂, hstep⟩ : ∃ acc₂, scanStep sn acc₁ (.addData a) = .ok acc₂ := ⟨_, rfl⟩
        simp only [scanChain, hstep] at hscan
        have h₂ : acc₂.last_watermark = some none := by
          rw [scanStep_lw sn acc₁ (.addData a) acc₂ hstep]
          simp [hlw₁, hwm]
        rw [scanChain_lw_stable sn post acc₂ acc none h₂ hscan]
        rfl

theorem newest_addData_fixes_watermark_witness :
    with_metadata_state_scanned 0 fixC10Chain none = .ok fixC10State
    ∧ fixC10State.last_watermark = none :=
  ⟨rfl,
    newest_addData_fixes_watermark 0 none [] [.setWatermark 5, .seed .root]
      fixC10Event fixC10State rfl (by simp) rfl⟩

/-- C8: `commit` is not atomic with respect to the writer's in-memory state: when the
writer has no schema and the staged result carries one, a successful `SetDataSchema`
commit updates the in-memory head and schema before the `AddData` commit is attempted,
so if the `AddData` commit then fails the call returns the error with the writer's
state already changed — its head points at the schema block. -/
theorem commit_nonatomic_on_error {σ : Type} (d : DatasetOps σ)
    (w : DataWriterMetadataState) (ds ds₁ ds₂ : σ) (staged : StageDataResult)
    (sch : ArrowSchema) (r : CommitResult) (e : CommitError)
    (hschema : w.schema = none)
    (hout : staged.output_schema = some sch)
    (hce : d.commit_event (.setDataSchema sch) ⟨staged.system_time, some w.head⟩ ds =
      (ds₁, .ok r))
    (hcad : d.commit_add_data staged.add_data staged.data_file none
      ⟨staged.system_time, some r.new_head⟩ ds₁ = (ds₂, .error e))
    (hne : r.new_head ≠ w.head) :
    commit d w ds staged =
      ({ w with head := r.new_head, schema := some sch }, ds₂, .error e)
    ∧ { w with head := r.new_head, schema := some sch } ≠ w := by
  constructor
  · simp only [commit, commitData, hschema, hout, hce, hcad]
  · intro hEq
    exact hne (congrArg DataWriterMetadataState.head hEq)

theorem commit_nonatomic_on_error_witness :
    commit fixOpsFail fixW8 0 fixStaged8 =
      ({ fixW8 with head := 42, schema := some fixSchema8 }, 6, .error (.commitFailed 3))
    ∧ { fixW8 with head := 42, schema := some fixSchema8 } ≠ fixW8 :=
  commit_nonatomic_on_error fixOpsFail fixW8 0 1 6 fixStaged8 fixSchema8 ⟨42⟩
    (.commitFailed 3) rfl rfl rfl rfl (by decide)

theorem chainCommitAddData_ok (hashFile : List AnnRow → Multihash) (p : AddDataParams)
    (f : Option (List AnnRow)) (cp : Option Multihash) (opts : CommitOpts)
    (c c' : ChainState) (r : CommitResult)
    (h : chainCommitAddData hashFile p f cp opts c = (c', .ok r)) :
    chainGetBlock r.new_head c' =
      some ⟨some c.head, opts.system_time,
        .addData (builtAddDataEvent hashFile p f cp)⟩ := by
  by_cases hcas : opts.prev_block_hash = some c.head
  · simp only [chainCommitAddData, chainCommitEvent, if_pos hcas, Prod.mk.injEq,
      Except.ok.injEq] at h
    obtain ⟨h₁, h₂⟩ := h
    subst h₁
    subst h₂
    simp [chainGetBlock]
  · simp only [chainCommitAddData, chainCommitEvent, if_neg hcas, Prod.mk.injEq] at h
    exact absurd h.2 (by simp)

theorem commitData_chain_ckpt (hashFile : List AnnRow → Multihash) (old_head : Multihash)
    (w₁ : DataWriterMetadataState) (c₁ : ChainState) (staged : StageDataResult)
    (w' : DataWriterMetadataState) (c' : ChainState) (res : WriteDataResult)
    (h : commitData (chainOps hashFile) old_head w₁ c₁ staged = (w', c', .ok res)) :
    w'.last_checkpoint = none := by
  rcases hcad : chainCommitAddData hashFile staged.add_data staged.data_file none
      ⟨staged.system_time, some w₁.head⟩ c₁ with ⟨c₂, r₂⟩
  cases r₂ with
  | error e =>
    simp [commitData, chainOps, hcad, Prod.mk.injEq] at h
  | ok cdr =>
    have hblk := chainCommitAddData_ok hashFile staged.add_data staged.data_file none
      ⟨staged.system_time, some w₁.head⟩ c₁ c₂ cdr hcad
    simp only [commitData, chainOps, hcad, hblk, Prod.mk.injEq, Except.ok.injEq] at h
    obtain ⟨hw', -, -⟩ := h
    rw [← hw']
    simp [builtAddDataEvent]

theorem stagePrepare_input_checkpoint (w : DataWriterMetadataState) (env : WriterEnv)
    (new_data : Option (ArrowSchema × List Row)) (opts : WriteDataOpts)
    (a : AddDataParams) (s : Option ArrowSchema) (f : Option (List AnnRow))
    (h : stagePrepare w env new_data opts = .ok (a, s, f)) :
    a.input_checkpoint = w.last_checkpoint := by
  cases new_data with
  | none =>
    simp only [stagePrepare, Except.ok.injEq, Prod.mk.injEq] at h
    obtain ⟨h₁, -, -⟩ := h
    rw [← h₁]
  | some p =>
    obtain ⟨sch, rows⟩ := p
    simp only [stagePrepare] at h
    repeat' split at h
    all_goals (cases h <;> rfl)

/-- C9: after every successful commit the writer's `last_checkpoint` is overwritten
with the committed block's `output_checkpoint`; this writer passes no checkpoint to
`commit_add_data`, so `last_checkpoint` is `None` after every successful commit — even
when the projection had found a checkpoint on the chain — and the next stage therefore
carries `input_checkpoint = None`. -/
theorem commit_resets_checkpoint (hashFile : List AnnRow → Multihash)
    (w : DataWriterMetadataState) (c : ChainState) (staged : StageDataResult)
    (w' : DataWriterMetadataState) (c' : ChainState) (res : WriteDataResult)
    (h : commit (chainOps hashFile) w c staged = (w', c', .ok res)) :
    w'.last_checkpoint = none
    ∧ ∀ (env : WriterEnv) (new_data : Option (ArrowSchema × List Row))
        (opts : WriteDataOpts) (a : AddDataParams) (s : Option ArrowSchema)
        (f : Option (List AnnRow)),
        stagePrepare w' env new_data opts = .ok (a, s, f) → a.input_checkpoint = none := by
  have hck : w'.last_checkpoint = none := by
    cases hw : w.schema with
    | some sch₀ =>
      simp only [commit, hw] at h
      exact commitData_chain_ckpt hashFile w.head w c staged w' c' res h
    | none =>
      cases hs : staged.output_schema with
      | none =>
        simp only [commit, hw, hs] at h
        exact commitData_chain_ckpt hashFile w.head w c staged w' c' res h
      | some os =>
        rcases hce : chainCommitEvent (.setDataSchema os)
            ⟨staged.system_time, some w.head⟩ c with ⟨c₁, r₁⟩
        cases r₁ with
        | error e₁ =>
          simp only [commit, hw, hs, chainOps, hce] at h
          simp [Prod.ext_iff] at h
        | ok cr =>
          simp only [commit, hw, hs, chainOps, hce] at h
          exact commitData_chain_ckpt hashFile w.head _ c₁ staged w' c' res h
  exact ⟨hck, fun env nd opts a s f hp =>
    (stagePrepare_input_checkpoint w' env nd opts a s f hp).trans hck⟩

theorem commit_resets_checkpoint_witness :
    fixW9.last_checkpoint = some 5
    ∧ commit (chainOps fixHash) fixW9 fixC9Chain fixStaged9 =
        (fixW9', fixC9Chain', .ok ⟨0, 1, fixBlock9⟩)
    ∧ fixW9'.last_checkpoint = none :=
  ⟨rfl, rfl,
    (commit_resets_checkpoint fixHash fixW9 fixC9Chain fixStaged9 fixW9' fixC9Chain'
      ⟨0, 1, fixBlock9⟩ rfl).1⟩

/-- C4 (code bug): the scan collects `data_slices` newest-first and
`get_all_previous_data` reverses that list to read slices oldest-to-newest, but
`commit` appends the new slice hash to the end of the list — the convention of the
newest-first scan would put it at the front. After one successful commit on a chain
that already had a slice (`11` old, `99` new), the writer reads `[99, 11]` while
oldest-to-newest order is `[11, 99]`. -/
theorem prev_read_order_after_commit :
    with_metadata_state_scanned 20 fixChainC4 none = .ok fixWC4
    ∧ stage fixWC4 fixEnvC4 (some fixBatchC4) ⟨5000, 200, some 7⟩ = .ok fixStagedC4
    ∧ (commit (chainOps fixHash) fixWC4 fixCsC4 fixStagedC4).2.2 =
        .ok ⟨20, 21, fixBlockC4⟩
    ∧ (commit (chainOps fixHash) fixWC4 fixCsC4 fixStagedC4).1.data_slices = [11, 99]
    ∧ prev_data_paths [11, 99] = [99, 11]
    ∧ oldestToNewestSlices
        (((commit (chainOps fixHash) fixWC4 fixCsC4 fixStagedC4).2.1).blocks.map
          (·.2.event)) = [11, 99]
    ∧ ([99, 11] : List Multihash) ≠ [11, 99] :=
  ⟨rfl, rfl, rfl, rfl, rfl, rfl, by decide⟩

end KamuWriter
